/-
Verification of the consul UI endpoint slice (agent/ui_endpoint.go): the
service aggregator (summarizeServices / modifySummaryForGatewayService) and
the metrics proxy gateway (UIMetricsProxy), shallowly embedded in Lean 4.

Strings are modelled through their character lists so that every operation
is structurally recursive and kernel-reducible; character comparison is the
code-point order, which agrees with Go's byte-wise string order on ASCII
(all strings handled by this endpoint slice are ASCII).
-/
import Mathlib

set_option maxHeartbeats 1000000

/-! ### String utilities (models of Go `strings` / `net/url` / `path` helpers) -/

/-- `listStartsWith s p` : the character list `s` begins with `p`
(model of Go `strings.HasPrefix` on the underlying bytes). -/
def listStartsWith : List Char → List Char → Bool
  | _, [] => true
  | [], _ :: _ => false
  | a :: as, b :: bs => a = b && listStartsWith as bs

/-- Model of Go `strings.HasPrefix`. -/
def strStartsWith (s pre : String) : Bool :=
  listStartsWith s.data pre.data

/-- Model of Go `strings.TrimPrefix`: drop `pre` from the front of `s`
when present, otherwise return `s` unchanged. -/
def strTrimPre (s pre : String) : String :=
  if strStartsWith s pre then String.mk (s.data.drop pre.data.length) else s

/-- Split a character list at every occurrence of the character `c`
(model of Go `strings.Split(s, "/")`-style splitting; the accumulator holds
the current segment reversed). -/
def splitOnCharAux (c : Char) : List Char → List Char → List (List Char)
  | [], acc => [acc.reverse]
  | x :: xs, acc =>
    if x = c then acc.reverse :: splitOnCharAux c xs []
    else splitOnCharAux c xs (x :: acc)

def splitOnChar (c : Char) (s : List Char) : List String :=
  (splitOnCharAux c s []).map String.mk

/-- `breakOn sep s` splits `s` around the first occurrence of the
(non-empty) separator `sep`, returning the parts before and after it,
or `none` when `sep` does not occur. -/
def breakOn (sep : List Char) : List Char → Option (List Char × List Char)
  | [] => if listStartsWith [] sep then some ([], []) else none
  | x :: xs =>
    if listStartsWith (x :: xs) sep then some ([], (x :: xs).drop sep.length)
    else
      match breakOn sep xs with
      | some (before, after) => some (x :: before, after)
      | none => none

/-- Join a list of strings with a separator (model of `strings.Join`). -/
def strJoin (sep : String) : List String → String
  | [] => ""
  | [s] => s
  | s :: rest => s ++ sep ++ strJoin sep rest

/-- One step of Go `path.Clean`'s segment processing: `""` and `"."`
segments are dropped; `".."` backtracks (for a rooted path it is dropped at
the root; for a relative path it accumulates when nothing can be popped);
any other segment is appended. -/
def cleanSeg (rooted : Bool) (acc : List String) (seg : String) : List String :=
  if seg = "" || seg = "." then acc
  else if seg = ".." then
    if rooted then acc.dropLast
    else
      match acc.getLast? with
      | none => acc ++ [".."]
      | some s => if s = ".." then acc ++ [".."] else acc.dropLast
  else acc ++ [seg]

/-- Model of Go `path.Clean`: split on `/`, process the segments, and
re-join, restoring the leading `/` for rooted paths; the empty path cleans
to `"."`. This segment-stack formulation is the standard equivalent of the
lazybuf algorithm in Go's `path` package. -/
def pathClean (p : String) : String :=
  if p = "" then "."
  else
    let rooted := listStartsWith p.data ['/']
    let segs := splitOnChar '/' p.data
    let out := segs.foldl (cleanSeg rooted) []
    let joined := strJoin "/" out
    if rooted then "/" ++ joined
    else if joined = "" then "." else joined

/-! ### URL model (Go `net/url`) -/

/-- Model of Go `url.URL` restricted to the fields this endpoint uses:
scheme, host (authority), path and raw query.  `rawQuery = ""` means the
URL carries no query string. -/
structure URL where
  scheme : String
  host : String
  path : String
  rawQuery : String
  deriving DecidableEq, Repr

/-- Take characters up to (excluding) the first occurrence of `c`,
returning them and the remainder (which starts with `c` when present). -/
def spanUntil (c : Char) : List Char → List Char × List Char
  | [] => ([], [])
  | x :: xs =>
    if x = c then ([], x :: xs)
    else
      let (a, b) := spanUntil c xs
      (x :: a, b)

/-- Model of Go `url.Parse`, restricted to the hierarchical shape
`scheme://host[/path][?query]` that the metrics proxy configuration and
request concatenation produce: the string is split at the first `://`
(scheme before it, which must be non-empty), the remainder is split at the
first `?` into host+path and raw query, and the host extends to the first
`/`.  Strings not of this shape are rejected with `none` (Go would parse
some of them as opaque URLs; the metrics proxy never forms such URLs from
a well-formed base URL). -/
def parseURL (s : String) : Option URL :=
  match breakOn "://".data s.data with
  | none => none
  | some (schemeCs, rest) =>
    if schemeCs = [] then none
    else
      let (hostPathCs, queryCs) :=
        match breakOn "?".data rest with
        | some (hp, q) => (hp, q)
        | none => (rest, [])
      let (hostCs, pathCs) := spanUntil '/' hostPathCs
      some { scheme := String.mk schemeCs
             host := String.mk hostCs
             path := String.mk pathCs
             rawQuery := String.mk queryCs }

/-- Model of Go `url.URL.String()` for the fields of our model: a `/` is
inserted between the host and a relative non-empty path, and `?query` is
appended when the raw query is non-empty. -/
def URL.str (u : URL) : String :=
  let pathPart :=
    if u.path ≠ "" && u.host ≠ "" && !listStartsWith u.path.data ['/']
    then "/" ++ u.path else u.path
  u.scheme ++ "://" ++ u.host ++ pathPart ++
    (if u.rawQuery = "" then "" else "?" ++ u.rawQuery)

/-! ### Metrics proxy gateway (UIMetricsProxy) -/

/-- The reloadable metrics-proxy configuration snapshot
(`config.UIMetricsProxy`); only the base URL is consulted by the handler. -/
structure UIMetricsProxyCfg where
  BaseURL : String
  deriving DecidableEq, Repr

/-- Outcome of one `UIMetricsProxy` invocation: a NotFound error, a
BadRequest error, or forwarding via the reverse relay, whose Director
replaces the outbound request URL wholesale with the given target URL. -/
inductive ProxyResult where
  | notFound (reason : String)
  | badRequest (reason : String)
  | forward (target : URL)
  deriving DecidableEq, Repr

/-- The fixed mount path of the metrics proxy endpoint. -/
def uiMetricsProxyMount : String := "/v1/internal/ui/metrics-proxy"

/-- Shallow embedding of `HTTPHandlers.UIMetricsProxy`
(agent/ui_endpoint.go).  `isUIEnabled` models `s.IsUIEnabled()`;
`metricsProxyCfg` models the atomic snapshot `s.metricsProxyCfg.Load()`
(`none` models a failed type assertion, i.e. no configuration stored);
`reqURLPath` / `reqURLRawQuery` are the inbound request's URL path and raw
query.  Note the Director sets `r.URL = u`, so the forwarded target is the
parsed-and-cleaned URL itself — the inbound raw query is not consulted. -/
def UIMetricsProxy (isUIEnabled : Bool) (metricsProxyCfg : Option UIMetricsProxyCfg)
    (reqURLPath : String) (reqURLRawQuery : String) : ProxyResult :=
  if !isUIEnabled then .notFound "UI is not enabled"
  else
    match metricsProxyCfg with
    | none => .notFound "Metrics proxy is not enabled"
    | some cfg =>
      if cfg.BaseURL = "" then .notFound "Metrics proxy is not enabled"
      else
        let subPath := strTrimPre reqURLPath uiMetricsProxyMount
        let newURL := cfg.BaseURL ++ subPath
        match parseURL newURL with
        | none => .badRequest "Invalid path."
        | some u0 =>
          let u := { u0 with path := pathClean u0.path }
          if !strStartsWith u.str cfg.BaseURL then .badRequest "Invalid path."
          else .forward u

/-! ### Aggregator data model (structs / api packages) -/

/-- Partition / namespace pair (`structs.EnterpriseMeta`); in the OSS build
both are plain strings defaulting to `""`. -/
structure EnterpriseMeta where
  partition : String
  ns : String
  deriving DecidableEq, Repr

/-- `structs.ServiceID`: an ID string plus enterprise metadata. -/
structure ServiceID where
  ID : String
  entMeta : EnterpriseMeta
  deriving DecidableEq, Repr

/-- `structs.NewServiceID`. -/
def NewServiceID (id : String) (entMeta : EnterpriseMeta) : ServiceID :=
  { ID := id, entMeta := entMeta }

/-- `structs.ServiceName` (used by gateway associations). -/
structure ServiceName where
  Name : String
  entMeta : EnterpriseMeta
  deriving DecidableEq, Repr

/-- `structs.ServiceName.ToServiceID`. -/
def ServiceName.toServiceID (sn : ServiceName) : ServiceID :=
  { ID := sn.Name, entMeta := sn.entMeta }

/-- `structs.ServiceKind` is a string type. -/
abbrev ServiceKind := String

/-- `structs.ServiceKindConnectProxy`. -/
def ServiceKindConnectProxy : ServiceKind := "connect-proxy"

/-- The `Proxy` field of a node service, as consulted by the aggregator. -/
structure ConnectProxyCfg where
  DestinationServiceName : String
  deriving DecidableEq, Repr

/-- `structs.NodeService` restricted to the fields `summarizeServices`
reads: service name, kind, tags, meta, proxy config and enterprise meta.
`Meta` models the Go `map[string]string` as an association list with
unique keys. -/
structure NodeService where
  Service : String
  Kind : ServiceKind
  Tags : List String
  Meta : List (String × String)
  Proxy : ConnectProxyCfg
  entMeta : EnterpriseMeta
  deriving DecidableEq, Repr

/-- Go map lookup on the association list, with the zero value `""` for a
missing key. -/
def metaLookup : List (String × String) → String → String
  | [], _ => ""
  | (k, v) :: rest, key => if k = key then v else metaLookup rest key

/-- `structs.HealthCheck` restricted to the `Status` field. -/
structure HealthCheck where
  Status : String
  deriving DecidableEq, Repr

/-- Health status constants of the `api` package, as the spec enumerates
them: passing / warning / critical. -/
def HealthPassing : String := "passing"

def HealthWarning : String := "warning"

def HealthCritical : String := "critical"

/-- The node a dump record belongs to (only its name is read). -/
structure NodeInfo where
  Node : String
  deriving DecidableEq, Repr

/-- `structs.GatewayService` as the aggregator uses it: the gateway's own
service identity plus its address-enumeration capability
(`gwsvc.Addresses(dnsAddresses)`), which the spec leaves as an external
collaborator; it is modelled as an opaque function from the candidate DNS
names to the final address list. -/
structure GatewayService where
  Service : ServiceName
  Addresses : List String → List String

/-- One record of a `structs.ServiceDump` (`csn` in the loop): a node,
an optional direct service instance, its checks, and an optional gateway
association. -/
structure CheckServiceNode where
  Node : NodeInfo
  Service : Option NodeService
  Checks : List HealthCheck
  GatewayService : Option GatewayService

/-- The slice of `config.RuntimeConfig` the aggregator consults. -/
structure RuntimeConfig where
  DNSDomain : String
  DNSAltDomain : String
  deriving DecidableEq, Repr

def metaExternalSource : String := "external-source"

/-- Modelled from the spec: `serviceIngressDNSName` constructs an ingress
DNS name from the destination service name, datacenter, domain and the
destination's partition/namespace (its source is not part of this slice;
the aggregator's invariants do not depend on the exact format). -/
def serviceIngressDNSName (service datacenter domain : String)
    (_entMeta : EnterpriseMeta) : String :=
  service ++ ".ingress." ++ datacenter ++ "." ++ domain

/-! ### ServiceSummary and the aggregation state -/

/-- `GatewayConfig`: the derived address list plus the unexported
`addressesSet` used for dedup (the Go `map[string]struct{}` is modelled as
a list queried only for membership). -/
structure GatewayConfig where
  Addresses : List String
  addressesSet : List String
  deriving DecidableEq, Repr

/-- `ServiceSummary` (agent/ui_endpoint.go).  The unexported side-sets
`proxyForSet` / `externalSourceSet` model the Go membership maps. -/
structure ServiceSummary where
  Kind : ServiceKind
  Name : String
  Tags : List String
  Nodes : List String
  InstanceCount : Nat
  ProxyFor : List String
  proxyForSet : List String
  ChecksPassing : Nat
  ChecksWarning : Nat
  ChecksCritical : Nat
  ExternalSources : List String
  externalSourceSet : List String
  GatewayConfig : GatewayConfig
  entMeta : EnterpriseMeta
  deriving DecidableEq, Repr

/-- The summary `getService` creates on first access: name and enterprise
meta from the ServiceID, `InstanceCount` 0, all other fields zero values. -/
def blankSummary (service : ServiceID) : ServiceSummary :=
  { Kind := "", Name := service.ID, Tags := [], Nodes := [], InstanceCount := 0
    ProxyFor := [], proxyForSet := [], ChecksPassing := 0, ChecksWarning := 0
    ChecksCritical := 0, ExternalSources := [], externalSourceSet := []
    GatewayConfig := { Addresses := [], addressesSet := [] }
    entMeta := service.entMeta }

/-- The working state of `summarizeServices`: the insertion-ordered list
of seen ServiceIDs and the ServiceID → summary mapping (modelled as an
association list with unique keys). -/
structure AggState where
  services : List ServiceID
  summary : List (ServiceID × ServiceSummary)

/-- Association-list lookup (the Go map index). -/
def findSummary : List (ServiceID × ServiceSummary) → ServiceID → Option ServiceSummary
  | [], _ => none
  | (k, v) :: rest, sid => if k = sid then some v else findSummary rest sid

/-- Apply `f` to the summary stored under `sid` (the Go code mutates the
shared `*ServiceSummary` in place). -/
def updateSummary (m : List (ServiceID × ServiceSummary)) (sid : ServiceID)
    (f : ServiceSummary → ServiceSummary) : List (ServiceID × ServiceSummary) :=
  m.map fun kv => if kv.1 = sid then (kv.1, f kv.2) else kv

/-- The `getService` accessor: on first access create a blank summary and
register the ServiceID in insertion order. -/
def AggState.getService (st : AggState) (service : ServiceID) : AggState :=
  match findSummary st.summary service with
  | some _ => st
  | none =>
    { services := st.services ++ [service]
      summary := st.summary ++ [(service, blankSummary service)] }

/-! ### The per-record updates of summarizeServices -/

/-- The candidate-DNS-name loop of `modifySummaryForGatewayService`: for
each of the primary and alternate DNS domains that is non-empty, append
the constructed ingress DNS name. -/
def gatewayDNSCandidates (cfg : RuntimeConfig) (datacenter : String)
    (sn : ServiceName) : List String :=
  [cfg.DNSDomain, cfg.DNSAltDomain].foldl
    (fun acc domain =>
      if domain = "" then acc
      else acc ++ [serviceIngressDNSName sn.Name datacenter domain sn.entMeta])
    []

/-- `modifySummaryForGatewayService`: build the candidate ingress DNS
names (skipping empty domains), enumerate addresses through the gateway
association, and append each address not already in the per-summary dedup
set. -/
def modifySummaryForGatewayService (cfg : RuntimeConfig) (datacenter : String)
    (sum : ServiceSummary) (gwsvc : GatewayService) : ServiceSummary :=
  let dnsAddresses := gatewayDNSCandidates cfg datacenter gwsvc.Service
  (gwsvc.Addresses dnsAddresses).foldl
    (fun sum addr =>
      if addr ∈ sum.GatewayConfig.addressesSet then sum
      else
        { sum with
          GatewayConfig :=
            { Addresses := sum.GatewayConfig.Addresses ++ [addr]
              addressesSet := sum.GatewayConfig.addressesSet ++ [addr] } })
    sum

/-- The check-counting switch: each check increments the counter matching
its status; unknown statuses fall through. -/
def applyCheck (sum : ServiceSummary) (check : HealthCheck) : ServiceSummary :=
  if check.Status = HealthPassing then
    { sum with ChecksPassing := sum.ChecksPassing + 1 }
  else if check.Status = HealthWarning then
    { sum with ChecksWarning := sum.ChecksWarning + 1 }
  else if check.Status = HealthCritical then
    { sum with ChecksCritical := sum.ChecksCritical + 1 }
  else sum

/-- The linear-scan tag merge: append the tag unless already present. -/
def addTag (sum : ServiceSummary) (tag : String) : ServiceSummary :=
  if tag ∈ sum.Tags then sum else { sum with Tags := sum.Tags ++ [tag] }

/-- Lines 244-247: append the node name to `Nodes` (no dedup), overwrite
`Kind` from the instance, and increment `InstanceCount`. -/
def instBase (nodeName : String) (svc : NodeService) (sum : ServiceSummary) :
    ServiceSummary :=
  { sum with
    Nodes := sum.Nodes ++ [nodeName]
    Kind := svc.Kind
    InstanceCount := sum.InstanceCount + 1 }

/-- Lines 248-256: for a connect-proxy instance, dedup-append the proxy
destination service name to `ProxyFor` via the side-set. -/
def instProxy (svc : NodeService) (sum : ServiceSummary) : ServiceSummary :=
  if svc.Kind = ServiceKindConnectProxy then
    if svc.Proxy.DestinationServiceName ∈ sum.proxyForSet then sum
    else
      { sum with
        proxyForSet := sum.proxyForSet ++ [svc.Proxy.DestinationServiceName]
        ProxyFor := sum.ProxyFor ++ [svc.Proxy.DestinationServiceName] }
  else sum

/-- Lines 271-284: when the instance meta carries a non-empty
external-source value, dedup-append it to `ExternalSources` via the
side-set. -/
def instExtSource (svc : NodeService) (sum : ServiceSummary) : ServiceSummary :=
  if svc.Meta.length > 0 ∧ metaLookup svc.Meta metaExternalSource ≠ "" then
    let source := metaLookup svc.Meta metaExternalSource
    if source ∈ sum.externalSourceSet then sum
    else
      { sum with
        externalSourceSet := sum.externalSourceSet ++ [source]
        ExternalSources := sum.ExternalSources ++ [source] }
  else sum

/-- The body of the dump loop for a record carrying a direct service
instance (lines 244-295): append the node, overwrite the kind, bump the
instance count, dedup-append the proxy destination (connect-proxy only),
merge tags, dedup-append the external source, and count checks. -/
def updateSummaryForInstance (nodeName : String) (svc : NodeService)
    (checks : List HealthCheck) (sum : ServiceSummary) : ServiceSummary :=
  let sum := instBase nodeName svc sum
  let sum := instProxy svc sum
  let sum := svc.Tags.foldl addTag sum
  let sum := instExtSource svc sum
  checks.foldl applyCheck sum

/-- One iteration of the dump loop: handle the gateway association if
present, then (unless the record is gateway-association-only) fold the
direct instance into its summary. -/
def processRecord (cfg : RuntimeConfig) (datacenter : String)
    (st : AggState) (csn : CheckServiceNode) : AggState :=
  let st :=
    match csn.GatewayService with
    | some gwsvc =>
      let gsid := gwsvc.Service.toServiceID
      let st := st.getService gsid
      { st with
        summary := updateSummary st.summary gsid
          (fun sum => modifySummaryForGatewayService cfg datacenter sum gwsvc) }
    | none => st
  match csn.Service with
  | none => st
  | some svc =>
    let sid := NewServiceID svc.Service svc.entMeta
    let st := st.getService sid
    { st with
      summary := updateSummary st.summary sid
        (updateSummaryForInstance csn.Node.Node svc csn.Checks) }

/-! ### Orders and sorting -/

/-- Lexicographic comparison of character lists (code-point order; equal
to Go's byte-wise string order on ASCII). -/
def charListLt : List Char → List Char → Bool
  | [], [] => false
  | [], _ :: _ => true
  | _ :: _, [] => false
  | a :: as, b :: bs => if a < b then true else if b < a then false else charListLt as bs

/-- Go string `<`. -/
def strLt (a b : String) : Bool := charListLt a.data b.data

/-- The total order used to model `sort.Strings`: `a ≤ b` iff `¬ (b < a)`. -/
def strLe (a b : String) : Prop := strLt b a = false

instance : DecidableRel strLe := fun a b => by unfold strLe; infer_instance

/-- Model of Go `sort.Strings`: since equal strings are indistinguishable,
every correct sort produces this list. -/
def sortStrings (l : List String) : List String :=
  List.insertionSort strLe l

/-- Modelled from the spec: `structs.ServiceID.LessThan`, the total order
by name, then partition, then namespace. -/
def ServiceID.lessThan (a b : ServiceID) : Bool :=
  if a.ID = b.ID then
    if a.entMeta.partition = b.entMeta.partition then
      strLt a.entMeta.ns b.entMeta.ns
    else strLt a.entMeta.partition b.entMeta.partition
  else strLt a.ID b.ID

/-- The non-strict version of `ServiceID.lessThan` used to model
`sort.Slice(services, LessThan)`: `a ≤ b` iff `¬ (b < a)`. -/
def sidLe (a b : ServiceID) : Prop := ServiceID.lessThan b a = false

instance : DecidableRel sidLe := fun a b => by unfold sidLe; infer_instance

/-- The scan phase of `summarizeServices`: the fold of the dump loop. -/
def aggScan (dump : List CheckServiceNode) (cfg : RuntimeConfig)
    (datacenter : String) : AggState :=
  dump.foldl (processRecord cfg datacenter) ⟨[], []⟩

/-- The body of the output loop (lines 303-308): look the summary up and
sort its `Nodes` and `Tags` in place.  The `none` branch mirrors the Go
map index's zero value; it is unreachable (every registered ServiceID has
a summary). -/
def finalizeSummary (st : AggState) (service : ServiceID) : ServiceSummary :=
  match findSummary st.summary service with
  | some sum =>
    { sum with Nodes := sortStrings sum.Nodes, Tags := sortStrings sum.Tags }
  | none => blankSummary service

/-- `summarizeServices` (agent/ui_endpoint.go): fold the dump through
`processRecord`, sort the seen ServiceIDs, and emit each summary with its
`Nodes` and `Tags` sorted. -/
def summarizeServices (dump : List CheckServiceNode) (cfg : RuntimeConfig)
    (datacenter : String) : List ServiceSummary :=
  let st := aggScan dump cfg datacenter
  let sorted := List.insertionSort sidLe st.services
  sorted.map (finalizeSummary st)

/-! ### Serialization model (encoding/json on the struct tags) -/

/-- How `encoding/json` renders one collection-valued field of
`ServiceSummary`: omitted from the object, JSON `null`, or a JSON array. -/
inductive JSONColl where
  | omitted
  | null
  | arr (elems : List String)
  deriving DecidableEq, Repr

/-- Marshalling of a `[]string` field without a json tag: a nil slice
marshals as `null`, a non-empty one as an array.  (In `summarizeServices`
slices are only ever produced by `append`, so a slice is nil exactly when
it is empty.) -/
def marshalSlice (xs : List String) : JSONColl :=
  if xs.isEmpty then .null else .arr xs

/-- Marshalling of a `[]string` field tagged `json:",omitempty"`: an
empty (nil) slice is omitted from the object entirely. -/
def marshalSliceOmitEmpty (xs : List String) : JSONColl :=
  if xs.isEmpty then .omitted else .arr xs

/-- The serialized rendering of the five collection fields of
`ServiceSummary`, following the struct's json tags: `Tags`, `Nodes` and
`ExternalSources` carry no tag; `ProxyFor` and `GatewayConfig.Addresses`
are `json:",omitempty"`. -/
structure SummaryCollJSON where
  Tags : JSONColl
  Nodes : JSONColl
  ProxyFor : JSONColl
  ExternalSources : JSONColl
  GatewayConfigAddresses : JSONColl
  deriving DecidableEq, Repr

def serializeCollections (s : ServiceSummary) : SummaryCollJSON :=
  { Tags := marshalSlice s.Tags
    Nodes := marshalSlice s.Nodes
    ProxyFor := marshalSliceOmitEmpty s.ProxyFor
    ExternalSources := marshalSlice s.ExternalSources
    GatewayConfigAddresses := marshalSliceOmitEmpty s.GatewayConfig.Addresses }

/-! ### Properties of the orders -/

theorem charListLt_irrefl : ∀ l : List Char, charListLt l l = false
  | [] => rfl
  | a :: as => by simp [charListLt, charListLt_irrefl as]

theorem charListLt_trans : ∀ {a b c : List Char},
    charListLt a b = true → charListLt b c = true → charListLt a c = true
  | [], [], _, h1, _ => by simp [charListLt] at h1
  | x :: xs, [], _, h1, _ => by simp [charListLt] at h1
  | _, _ :: _, [], _, h2 => by simp [charListLt] at h2
  | [], _ :: _, _ :: _, _, _ => rfl
  | x :: xs, y :: ys, z :: zs, h1, h2 => by
    simp only [charListLt] at h1 h2 ⊢
    rcases lt_trichotomy x y with hxy | rfl | hxy
    · rcases lt_trichotomy y z with hyz | rfl | hyz
      · simp [lt_trans hxy hyz]
      · simp [hxy]
      · rw [if_neg (asymm hyz), if_pos hyz] at h2
        simp at h2
    · rw [if_neg (lt_irrefl x), if_neg (lt_irrefl x)] at h1
      rcases lt_trichotomy x z with hxz | rfl | hxz
      · simp [hxz]
      · rw [if_neg (lt_irrefl x), if_neg (lt_irrefl x)] at h2 ⊢
        exact charListLt_trans h1 h2
      · rw [if_neg (asymm hxz), if_pos hxz] at h2
        simp at h2
    · rw [if_neg (asymm hxy), if_pos hxy] at h1
      simp at h1

theorem charListLt_eq_of_not : ∀ {a b : List Char},
    charListLt a b = false → charListLt b a = false → a = b
  | [], [], _, _ => rfl
  | [], _ :: _, h1, _ => by simp [charListLt] at h1
  | _ :: _, [], _, h2 => by simp [charListLt] at h2
  | x :: xs, y :: ys, h1, h2 => by
    simp only [charListLt] at h1 h2
    rcases lt_trichotomy x y with hxy | rfl | hxy
    · rw [if_pos hxy] at h1; simp at h1
    · rw [if_neg (lt_irrefl x), if_neg (lt_irrefl x)] at h1 h2
      rw [charListLt_eq_of_not h1 h2]
    · rw [if_pos hxy] at h2; simp at h2

theorem strLt_irrefl (a : String) : strLt a a = false :=
  charListLt_irrefl a.data

theorem strLt_trans {a b c : String} (h1 : strLt a b = true)
    (h2 : strLt b c = true) : strLt a c = true :=
  charListLt_trans h1 h2

theorem strLt_eq_of_not {a b : String} (h1 : strLt a b = false)
    (h2 : strLt b a = false) : a = b := by
  cases a; cases b
  exact congrArg String.mk (charListLt_eq_of_not h1 h2)

instance : IsTotal String strLe :=
  ⟨fun a b => by
    unfold strLe
    cases h1 : strLt b a
    · exact Or.inl rfl
    · cases h2 : strLt a b
      · exact Or.inr rfl
      · have h3 := strLt_trans h2 h1
        rw [strLt_irrefl] at h3
        simp at h3⟩

instance : IsTrans String strLe :=
  ⟨fun a b c h1 h2 => by
    unfold strLe at *
    cases h3 : strLt c a
    · rfl
    · cases h4 : strLt a b
      · rw [strLt_eq_of_not h4 h1] at h3
        rw [h3] at h2
        simp at h2
      · have h5 := strLt_trans h3 h4
        rw [h5] at h2
        simp at h2⟩

theorem sid_lessThan_irrefl (a : ServiceID) : ServiceID.lessThan a a = false := by
  simp [ServiceID.lessThan, strLt_irrefl]

theorem sid_lessThan_trans {a b c : ServiceID} (h1 : ServiceID.lessThan a b = true)
    (h2 : ServiceID.lessThan b c = true) : ServiceID.lessThan a c = true := by
  unfold ServiceID.lessThan at *
  by_cases e1 : a.ID = b.ID <;> by_cases e2 : b.ID = c.ID
  · rw [if_pos e1] at h1
    rw [if_pos e2] at h2
    rw [if_pos (e1.trans e2)]
    by_cases p1 : a.entMeta.partition = b.entMeta.partition <;>
      by_cases p2 : b.entMeta.partition = c.entMeta.partition
    · rw [if_pos p1] at h1
      rw [if_pos p2] at h2
      rw [if_pos (p1.trans p2)]
      exact strLt_trans h1 h2
    · rw [if_pos p1] at h1
      rw [if_neg p2] at h2
      rw [if_neg (p1 ▸ p2)]
      exact p1 ▸ h2
    · rw [if_neg p1] at h1
      rw [if_pos p2] at h2
      rw [if_neg (p2 ▸ p1)]
      exact p2 ▸ h1
    · rw [if_neg p1] at h1
      rw [if_neg p2] at h2
      have hlt := strLt_trans h1 h2
      have hne : a.entMeta.partition ≠ c.entMeta.partition := by
        intro he
        rw [he] at h1
        have h5 := strLt_trans h1 h2
        rw [strLt_irrefl] at h5
        simp at h5
      rw [if_neg hne]
      exact hlt
  · rw [if_pos e1] at h1
    rw [if_neg e2] at h2
    rw [if_neg (e1 ▸ e2), e1]
    exact h2
  · rw [if_neg e1] at h1
    rw [if_pos e2] at h2
    rw [if_neg (e2 ▸ e1), ← e2]
    exact h1
  · rw [if_neg e1] at h1
    rw [if_neg e2] at h2
    have hlt := strLt_trans h1 h2
    have hne : a.ID ≠ c.ID := by
      intro he
      rw [he] at h1
      have h5 := strLt_trans h1 h2
      rw [strLt_irrefl] at h5
      simp at h5
    rw [if_neg hne]
    exact hlt

theorem sid_lessThan_eq_of_not {a b : ServiceID}
    (h1 : ServiceID.lessThan a b = false) (h2 : ServiceID.lessThan b a = false) :
    a = b := by
  unfold ServiceID.lessThan at h1 h2
  by_cases e1 : a.ID = b.ID
  · rw [if_pos e1] at h1
    rw [if_pos e1.symm] at h2
    by_cases p1 : a.entMeta.partition = b.entMeta.partition
    · rw [if_pos p1] at h1
      rw [if_pos p1.symm] at h2
      have hns := strLt_eq_of_not h1 h2
      obtain ⟨aID, ⟨ap, an⟩⟩ := a
      obtain ⟨bID, ⟨bp, bn⟩⟩ := b
      simp_all
    · rw [if_neg p1] at h1
      rw [if_neg (Ne.symm p1)] at h2
      exact absurd (strLt_eq_of_not h1 h2) p1
  · rw [if_neg e1] at h1
    rw [if_neg (Ne.symm e1)] at h2
    exact absurd (strLt_eq_of_not h1 h2) e1

instance : IsTotal ServiceID sidLe :=
  ⟨fun a b => by
    unfold sidLe
    cases h1 : ServiceID.lessThan b a
    · exact Or.inl rfl
    · cases h2 : ServiceID.lessThan a b
      · exact Or.inr rfl
      · have h3 := sid_lessThan_trans h2 h1
        rw [sid_lessThan_irrefl] at h3
        simp at h3⟩

instance : IsTrans ServiceID sidLe :=
  ⟨fun a b c h1 h2 => by
    unfold sidLe at *
    cases h3 : ServiceID.lessThan c a
    · rfl
    · cases h4 : ServiceID.lessThan a b
      · rw [sid_lessThan_eq_of_not h4 h1] at h3
        rw [h3] at h2
        simp at h2
      · have h5 := sid_lessThan_trans h3 h4
        rw [h5] at h2
        simp at h2⟩

example : pathClean "/../../secret" = "/secret" := by decide
example : pathClean "/metrics/cpu" = "/metrics/cpu" := by decide
example : pathClean "/a//b/./c/" = "/a/b/c" := by decide
example : pathClean "a/../.." = ".." := by decide
example : pathClean "/" = "/" := by decide
example : pathClean "" = "." := by decide
example :
    parseURL "http://backend:9090/api/v1/query" =
      some { scheme := "http", host := "backend:9090",
             path := "/api/v1/query", rawQuery := "" } := by decide
/-! ### Association-list lemmas -/

theorem findSummary_eq_none (m : List (ServiceID × ServiceSummary)) (k : ServiceID) :
    findSummary m k = none ↔ k ∉ m.map Prod.fst := by
  induction m with
  | nil => simp [findSummary]
  | cons kv rest ih =>
    obtain ⟨k1, v1⟩ := kv
    by_cases h : k1 = k <;> simp [findSummary, h, ih, Ne.symm]

theorem findSummary_append (m m' : List (ServiceID × ServiceSummary)) (k : ServiceID) :
    findSummary (m ++ m') k =
      match findSummary m k with
      | some v => some v
      | none => findSummary m' k := by
  induction m with
  | nil => simp [findSummary]
  | cons kv rest ih =>
    obtain ⟨k1, v1⟩ := kv
    by_cases h : k1 = k <;> simp [findSummary, h, ih]

theorem findSummary_updateSummary (m : List (ServiceID × ServiceSummary))
    (sid : ServiceID) (f : ServiceSummary → ServiceSummary) (k : ServiceID) :
    findSummary (updateSummary m sid f) k =
      if k = sid then (findSummary m k).map f else findSummary m k := by
  induction m with
  | nil => simp [updateSummary, findSummary]
  | cons kv rest ih =>
    obtain ⟨k1, v1⟩ := kv
    have hcons : updateSummary ((k1, v1) :: rest) sid f =
        (if k1 = sid then (k1, f v1) else (k1, v1)) :: updateSummary rest sid f := rfl
    rw [hcons]
    by_cases h1 : k1 = sid
    · rw [if_pos h1]
      subst h1
      by_cases h2 : k1 = k
      · subst h2
        simp [findSummary]
      · simp [findSummary, h2, Ne.symm h2, ih]
    · rw [if_neg h1]
      by_cases h2 : k1 = k
      · subst h2
        simp [findSummary, h1]
      · simp [findSummary, h2, ih]

theorem updateSummary_map_fst (m : List (ServiceID × ServiceSummary))
    (sid : ServiceID) (f : ServiceSummary → ServiceSummary) :
    (updateSummary m sid f).map Prod.fst = m.map Prod.fst := by
  induction m with
  | nil => rfl
  | cons kv rest ih =>
    obtain ⟨k1, v1⟩ := kv
    by_cases h : k1 = sid <;> simp [updateSummary, h] <;>
      simpa [updateSummary] using ih

/-! ### The dedup invariant and frame lemmas -/

/-- The invariant tying an insertion-ordered list to its membership
side-set: the list has no duplicates and the set holds exactly the list's
elements. -/
def DedupInv (lst set : List String) : Prop :=
  lst.Nodup ∧ ∀ x, x ∈ set ↔ x ∈ lst

theorem DedupInv.nil : DedupInv [] [] :=
  ⟨List.nodup_nil, fun x => by simp⟩

theorem DedupInv.append {lst set : List String} (h : DedupInv lst set)
    (x : String) (hx : x ∉ set) : DedupInv (lst ++ [x]) (set ++ [x]) := by
  obtain ⟨hnd, hiff⟩ := h
  have hxl : x ∉ lst := fun hmem => hx ((hiff x).mpr hmem)
  refine ⟨?_, fun y => ?_⟩
  · simp [List.nodup_append, hnd, hxl]
  · simp [List.mem_append, hiff y]

/-- `applyCheck` touches only the three check counters. -/
theorem applyCheck_frame (sum : ServiceSummary) (check : HealthCheck) :
    (applyCheck sum check).Kind = sum.Kind ∧
    (applyCheck sum check).Name = sum.Name ∧
    (applyCheck sum check).Tags = sum.Tags ∧
    (applyCheck sum check).Nodes = sum.Nodes ∧
    (applyCheck sum check).InstanceCount = sum.InstanceCount ∧
    (applyCheck sum check).ProxyFor = sum.ProxyFor ∧
    (applyCheck sum check).proxyForSet = sum.proxyForSet ∧
    (applyCheck sum check).ExternalSources = sum.ExternalSources ∧
    (applyCheck sum check).externalSourceSet = sum.externalSourceSet ∧
    (applyCheck sum check).GatewayConfig = sum.GatewayConfig ∧
    (applyCheck sum check).entMeta = sum.entMeta := by
  unfold applyCheck
  split_ifs <;> exact ⟨rfl, rfl, rfl, rfl, rfl, rfl, rfl, rfl, rfl, rfl, rfl⟩

/-- The checks fold touches only the three check counters. -/
theorem foldl_applyCheck_frame (checks : List HealthCheck) (sum : ServiceSummary) :
    (checks.foldl applyCheck sum).Kind = sum.Kind ∧
    (checks.foldl applyCheck sum).Name = sum.Name ∧
    (checks.foldl applyCheck sum).Tags = sum.Tags ∧
    (checks.foldl applyCheck sum).Nodes = sum.Nodes ∧
    (checks.foldl applyCheck sum).InstanceCount = sum.InstanceCount ∧
    (checks.foldl applyCheck sum).ProxyFor = sum.ProxyFor ∧
    (checks.foldl applyCheck sum).proxyForSet = sum.proxyForSet ∧
    (checks.foldl applyCheck sum).ExternalSources = sum.ExternalSources ∧
    (checks.foldl applyCheck sum).externalSourceSet = sum.externalSourceSet ∧
    (checks.foldl applyCheck sum).GatewayConfig = sum.GatewayConfig ∧
    (checks.foldl applyCheck sum).entMeta = sum.entMeta := by
  induction checks generalizing sum with
  | nil => exact ⟨rfl, rfl, rfl, rfl, rfl, rfl, rfl, rfl, rfl, rfl, rfl⟩
  | cons c cs ih =>
    obtain ⟨h1, h2, h3, h4, h5, h6, h7, h8, h9, h10, h11⟩ := applyCheck_frame sum c
    obtain ⟨g1, g2, g3, g4, g5, g6, g7, g8, g9, g10, g11⟩ := ih (applyCheck sum c)
    exact ⟨g1.trans h1, g2.trans h2, g3.trans h3, g4.trans h4, g5.trans h5,
      g6.trans h6, g7.trans h7, g8.trans h8, g9.trans h9, g10.trans h10, g11.trans h11⟩

/-- `addTag` touches only `Tags`. -/
theorem addTag_frame (sum : ServiceSummary) (tag : String) :
    (addTag sum tag).Kind = sum.Kind ∧
    (addTag sum tag).Name = sum.Name ∧
    (addTag sum tag).Nodes = sum.Nodes ∧
    (addTag sum tag).InstanceCount = sum.InstanceCount ∧
    (addTag sum tag).ProxyFor = sum.ProxyFor ∧
    (addTag sum tag).proxyForSet = sum.proxyForSet ∧
    (addTag sum tag).ChecksPassing = sum.ChecksPassing ∧
    (addTag sum tag).ChecksWarning = sum.ChecksWarning ∧
    (addTag sum tag).ChecksCritical = sum.ChecksCritical ∧
    (addTag sum tag).ExternalSources = sum.ExternalSources ∧
    (addTag sum tag).externalSourceSet = sum.externalSourceSet ∧
    (addTag sum tag).GatewayConfig = sum.GatewayConfig ∧
    (addTag sum tag).entMeta = sum.entMeta := by
  unfold addTag
  split_ifs <;> exact ⟨rfl, rfl, rfl, rfl, rfl, rfl, rfl, rfl, rfl, rfl, rfl, rfl, rfl⟩

/-- The tag-merge fold touches only `Tags`. -/
theorem foldl_addTag_frame (tags : List String) (sum : ServiceSummary) :
    (tags.foldl addTag sum).Kind = sum.Kind ∧
    (tags.foldl addTag sum).Name = sum.Name ∧
    (tags.foldl addTag sum).Nodes = sum.Nodes ∧
    (tags.foldl addTag sum).InstanceCount = sum.InstanceCount ∧
    (tags.foldl addTag sum).ProxyFor = sum.ProxyFor ∧
    (tags.foldl addTag sum).proxyForSet = sum.proxyForSet ∧
    (tags.foldl addTag sum).ChecksPassing = sum.ChecksPassing ∧
    (tags.foldl addTag sum).ChecksWarning = sum.ChecksWarning ∧
    (tags.foldl addTag sum).ChecksCritical = sum.ChecksCritical ∧
    (tags.foldl addTag sum).ExternalSources = sum.ExternalSources ∧
    (tags.foldl addTag sum).externalSourceSet = sum.externalSourceSet ∧
    (tags.foldl addTag sum).GatewayConfig = sum.GatewayConfig ∧
    (tags.foldl addTag sum).entMeta = sum.entMeta := by
  induction tags generalizing sum with
  | nil => exact ⟨rfl, rfl, rfl, rfl, rfl, rfl, rfl, rfl, rfl, rfl, rfl, rfl, rfl⟩
  | cons t ts ih =>
    obtain ⟨h1, h2, h3, h4, h5, h6, h7, h8, h9, h10, h11, h12, h13⟩ := addTag_frame sum t
    obtain ⟨g1, g2, g3, g4, g5, g6, g7, g8, g9, g10, g11, g12, g13⟩ := ih (addTag sum t)
    exact ⟨g1.trans h1, g2.trans h2, g3.trans h3, g4.trans h4, g5.trans h5,
      g6.trans h6, g7.trans h7, g8.trans h8, g9.trans h9, g10.trans h10,
      g11.trans h11, g12.trans h12, g13.trans h13⟩

/-- The tag-merge fold preserves `Nodup` of `Tags`. -/
theorem foldl_addTag_nodup (tags : List String) (sum : ServiceSummary)
    (h : sum.Tags.Nodup) : (tags.foldl addTag sum).Tags.Nodup := by
  induction tags generalizing sum with
  | nil => exact h
  | cons t ts ih =>
    refine ih (addTag sum t) ?_
    unfold addTag
    split_ifs with hmem
    · exact h
    · simp [List.nodup_append, h, hmem]

/-- `instProxy` touches only `ProxyFor` / `proxyForSet`, preserving their
dedup invariant. -/
theorem instProxy_fields (svc : NodeService) (s : ServiceSummary) :
    (instProxy svc s).Name = s.Name ∧
    (instProxy svc s).entMeta = s.entMeta ∧
    (instProxy svc s).InstanceCount = s.InstanceCount ∧
    (instProxy svc s).Nodes = s.Nodes ∧
    (instProxy svc s).Kind = s.Kind ∧
    (instProxy svc s).GatewayConfig = s.GatewayConfig ∧
    (instProxy svc s).Tags = s.Tags ∧
    (instProxy svc s).ExternalSources = s.ExternalSources ∧
    (instProxy svc s).externalSourceSet = s.externalSourceSet ∧
    (DedupInv s.ProxyFor s.proxyForSet →
      DedupInv (instProxy svc s).ProxyFor (instProxy svc s).proxyForSet) := by
  unfold instProxy
  split_ifs with c1 c2
  · exact ⟨rfl, rfl, rfl, rfl, rfl, rfl, rfl, rfl, rfl, fun h => h⟩
  · exact ⟨rfl, rfl, rfl, rfl, rfl, rfl, rfl, rfl, rfl, fun h => h.append _ c2⟩
  · exact ⟨rfl, rfl, rfl, rfl, rfl, rfl, rfl, rfl, rfl, fun h => h⟩

/-- `instExtSource` touches only `ExternalSources` / `externalSourceSet`,
preserving their dedup invariant. -/
theorem instExtSource_fields (svc : NodeService) (s : ServiceSummary) :
    (instExtSource svc s).Name = s.Name ∧
    (instExtSource svc s).entMeta = s.entMeta ∧
    (instExtSource svc s).InstanceCount = s.InstanceCount ∧
    (instExtSource svc s).Nodes = s.Nodes ∧
    (instExtSource svc s).Kind = s.Kind ∧
    (instExtSource svc s).GatewayConfig = s.GatewayConfig ∧
    (instExtSource svc s).Tags = s.Tags ∧
    (instExtSource svc s).ProxyFor = s.ProxyFor ∧
    (instExtSource svc s).proxyForSet = s.proxyForSet ∧
    (DedupInv s.ExternalSources s.externalSourceSet →
      DedupInv (instExtSource svc s).ExternalSources
        (instExtSource svc s).externalSourceSet) := by
  simp only [instExtSource]
  split_ifs with c1 c2
  · exact ⟨rfl, rfl, rfl, rfl, rfl, rfl, rfl, rfl, rfl, fun h => h⟩
  · exact ⟨rfl, rfl, rfl, rfl, rfl, rfl, rfl, rfl, rfl, fun h => h.append _ c2⟩
  · exact ⟨rfl, rfl, rfl, rfl, rfl, rfl, rfl, rfl, rfl, fun h => h⟩

/-- The per-instance update: `Name`/`entMeta`/`GatewayConfig` untouched,
`InstanceCount` incremented by exactly one, exactly one node appended,
`Kind` overwritten to the instance's kind, and the dedup invariants of
`Tags`, `ProxyFor` and `ExternalSources` preserved. -/
theorem updateInstance_fields (node : String) (svc : NodeService)
    (checks : List HealthCheck) (sum : ServiceSummary) :
    (updateSummaryForInstance node svc checks sum).Name = sum.Name ∧
    (updateSummaryForInstance node svc checks sum).entMeta = sum.entMeta ∧
    (updateSummaryForInstance node svc checks sum).InstanceCount = sum.InstanceCount + 1 ∧
    (updateSummaryForInstance node svc checks sum).Nodes = sum.Nodes ++ [node] ∧
    (updateSummaryForInstance node svc checks sum).Kind = svc.Kind ∧
    (updateSummaryForInstance node svc checks sum).GatewayConfig = sum.GatewayConfig ∧
    (sum.Tags.Nodup → (updateSummaryForInstance node svc checks sum).Tags.Nodup) ∧
    (DedupInv sum.ProxyFor sum.proxyForSet →
      DedupInv (updateSummaryForInstance node svc checks sum).ProxyFor
        (updateSummaryForInstance node svc checks sum).proxyForSet) ∧
    (DedupInv sum.ExternalSources sum.externalSourceSet →
      DedupInv (updateSummaryForInstance node svc checks sum).ExternalSources
        (updateSummaryForInstance node svc checks sum).externalSourceSet) := by
  have hbase : instBase node svc sum =
      { sum with Nodes := sum.Nodes ++ [node], Kind := svc.Kind
                 InstanceCount := sum.InstanceCount + 1 } := rfl
  obtain ⟨p1, p2, p3, p4, p5, p6, p7, p8, p9, pd⟩ :=
    instProxy_fields svc (instBase node svc sum)
  obtain ⟨t1, t2, t3, t4, t5, t6, t7, t8, t9, t10, t11, t12, t13⟩ :=
    foldl_addTag_frame svc.Tags (instProxy svc (instBase node svc sum))
  obtain ⟨e1, e2, e3, e4, e5, e6, e7, e8, e9, ed⟩ :=
    instExtSource_fields svc
      (svc.Tags.foldl addTag (instProxy svc (instBase node svc sum)))
  obtain ⟨c1, c2, c3, c4, c5, c6, c7, c8, c9, c10, c11⟩ :=
    foldl_applyCheck_frame checks
      (instExtSource svc (svc.Tags.foldl addTag (instProxy svc (instBase node svc sum))))
  have hre : updateSummaryForInstance node svc checks sum =
      checks.foldl applyCheck
        (instExtSource svc (svc.Tags.foldl addTag
          (instProxy svc (instBase node svc sum)))) := rfl
  rw [hre]
  refine ⟨?_, ?_, ?_, ?_, ?_, ?_, ?_, ?_, ?_⟩
  · exact c2.trans (e1.trans (t2.trans p1))
  · exact c11.trans (e2.trans (t13.trans p2))
  · exact c5.trans (e3.trans (t4.trans p3))
  · exact c4.trans (e4.trans (t3.trans p4))
  · exact c1.trans (e5.trans (t1.trans p5))
  · exact c10.trans (e6.trans (t12.trans p6))
  · intro h
    rw [c3, e7]
    exact foldl_addTag_nodup svc.Tags _ (p7.symm ▸ h)
  · intro h
    rw [c6, c7, e8, e9, t5, t6]
    exact pd h
  · intro h
    rw [c8, c9]
    refine ed ?_
    rw [t10, t11, p8, p9]
    exact h

/-- The address fold of `modifySummaryForGatewayService` touches only
`GatewayConfig`, preserving its dedup invariant. -/
theorem gwFold_frame : ∀ (l : List String) (sum t : ServiceSummary),
    t = l.foldl
      (fun sum addr =>
        if addr ∈ sum.GatewayConfig.addressesSet then sum
        else
          { sum with
            GatewayConfig :=
              { Addresses := sum.GatewayConfig.Addresses ++ [addr]
                addressesSet := sum.GatewayConfig.addressesSet ++ [addr] } })
      sum →
    t.Kind = sum.Kind ∧ t.Name = sum.Name ∧ t.entMeta = sum.entMeta ∧
    t.Tags = sum.Tags ∧ t.Nodes = sum.Nodes ∧
    t.InstanceCount = sum.InstanceCount ∧ t.ProxyFor = sum.ProxyFor ∧
    t.proxyForSet = sum.proxyForSet ∧ t.ChecksPassing = sum.ChecksPassing ∧
    t.ChecksWarning = sum.ChecksWarning ∧ t.ChecksCritical = sum.ChecksCritical ∧
    t.ExternalSources = sum.ExternalSources ∧
    t.externalSourceSet = sum.externalSourceSet ∧
    (DedupInv sum.GatewayConfig.Addresses sum.GatewayConfig.addressesSet →
      DedupInv t.GatewayConfig.Addresses t.GatewayConfig.addressesSet)
  | [], sum, t, ht => by
    subst ht
    exact ⟨rfl, rfl, rfl, rfl, rfl, rfl, rfl, rfl, rfl, rfl, rfl, rfl, rfl, fun h => h⟩
  | a :: as, sum, t, ht => by
    rw [List.foldl_cons] at ht
    by_cases hmem : a ∈ sum.GatewayConfig.addressesSet
    · rw [if_pos hmem] at ht
      exact gwFold_frame as sum t ht
    · rw [if_neg hmem] at ht
      obtain ⟨g1, g2, g3, g4, g5, g6, g7, g8, g9, g10, g11, g12, g13, gd⟩ :=
        gwFold_frame as _ t ht
      exact ⟨g1, g2, g3, g4, g5, g6, g7, g8, g9, g10, g11, g12, g13,
        fun h => gd (h.append a hmem)⟩

/-- `modifySummaryForGatewayService` touches only `GatewayConfig`,
preserving its dedup invariant. -/
theorem modifyGw_fields (cfg : RuntimeConfig) (dc : String) (sum : ServiceSummary)
    (gwsvc : GatewayService) :
    (modifySummaryForGatewayService cfg dc sum gwsvc).Kind = sum.Kind ∧
    (modifySummaryForGatewayService cfg dc sum gwsvc).Name = sum.Name ∧
    (modifySummaryForGatewayService cfg dc sum gwsvc).entMeta = sum.entMeta ∧
    (modifySummaryForGatewayService cfg dc sum gwsvc).Tags = sum.Tags ∧
    (modifySummaryForGatewayService cfg dc sum gwsvc).Nodes = sum.Nodes ∧
    (modifySummaryForGatewayService cfg dc sum gwsvc).InstanceCount = sum.InstanceCount ∧
    (modifySummaryForGatewayService cfg dc sum gwsvc).ProxyFor = sum.ProxyFor ∧
    (modifySummaryForGatewayService cfg dc sum gwsvc).proxyForSet = sum.proxyForSet ∧
    (modifySummaryForGatewayService cfg dc sum gwsvc).ChecksPassing = sum.ChecksPassing ∧
    (modifySummaryForGatewayService cfg dc sum gwsvc).ChecksWarning = sum.ChecksWarning ∧
    (modifySummaryForGatewayService cfg dc sum gwsvc).ChecksCritical = sum.ChecksCritical ∧
    (modifySummaryForGatewayService cfg dc sum gwsvc).ExternalSources = sum.ExternalSources ∧
    (modifySummaryForGatewayService cfg dc sum gwsvc).externalSourceSet = sum.externalSourceSet ∧
    (DedupInv sum.GatewayConfig.Addresses sum.GatewayConfig.addressesSet →
      DedupInv (modifySummaryForGatewayService cfg dc sum gwsvc).GatewayConfig.Addresses
        (modifySummaryForGatewayService cfg dc sum gwsvc).GatewayConfig.addressesSet) :=
  gwFold_frame (gwsvc.Addresses (gatewayDNSCandidates cfg dc gwsvc.Service)) sum
    (modifySummaryForGatewayService cfg dc sum gwsvc) rfl

/-! ### The scan invariant -/

/-- Whether a dump record carries a direct service instance resolving to
the ServiceID `k`. -/
def csnMatches (k : ServiceID) (csn : CheckServiceNode) : Bool :=
  match csn.Service with
  | some svc => decide (NewServiceID svc.Service svc.entMeta = k)
  | none => false

/-- The kind carried by a record's direct service instance (`""` when the
record carries none). -/
def csnKind (csn : CheckServiceNode) : ServiceKind :=
  match csn.Service with
  | some svc => svc.Kind
  | none => ""

/-- The kind of the last record of a list (`""` for the empty list). -/
def kindOfLast (l : List CheckServiceNode) : ServiceKind :=
  match l.getLast? with
  | some csn => csnKind csn
  | none => ""

/-- Invariant of one summary relative to the processed prefix of the
dump. -/
structure SummaryInv (k : ServiceID) (v : ServiceSummary)
    (processed : List CheckServiceNode) : Prop where
  name_eq : v.Name = k.ID
  meta_eq : v.entMeta = k.entMeta
  count_eq : v.InstanceCount = (processed.filter (csnMatches k)).length
  nodes_len : v.Nodes.length = v.InstanceCount
  kind_eq : v.Kind = kindOfLast (processed.filter (csnMatches k))
  tags_nodup : v.Tags.Nodup
  proxy_inv : DedupInv v.ProxyFor v.proxyForSet
  ext_inv : DedupInv v.ExternalSources v.externalSourceSet
  addr_inv : DedupInv v.GatewayConfig.Addresses v.GatewayConfig.addressesSet

/-- Invariant of the whole aggregation state. -/
structure StateInv (st : AggState) (processed : List CheckServiceNode) : Prop where
  keys_eq : st.services = st.summary.map Prod.fst
  keys_nodup : (st.summary.map Prod.fst).Nodup
  each : ∀ k v, findSummary st.summary k = some v → SummaryInv k v processed
  fresh : ∀ k, findSummary st.summary k = none →
    processed.filter (csnMatches k) = []

theorem SummaryInv.congr {k : ServiceID} {v : ServiceSummary}
    {processed processed' : List CheckServiceNode} (h : SummaryInv k v processed)
    (he : processed'.filter (csnMatches k) = processed.filter (csnMatches k)) :
    SummaryInv k v processed' :=
  { name_eq := h.name_eq, meta_eq := h.meta_eq
    count_eq := by rw [he]; exact h.count_eq
    nodes_len := h.nodes_len
    kind_eq := by rw [he]; exact h.kind_eq
    tags_nodup := h.tags_nodup, proxy_inv := h.proxy_inv
    ext_inv := h.ext_inv, addr_inv := h.addr_inv }

theorem summaryInv_blank (k : ServiceID) (processed : List CheckServiceNode)
    (h : processed.filter (csnMatches k) = []) :
    SummaryInv k (blankSummary k) processed := by
  refine ⟨rfl, rfl, ?_, rfl, ?_, List.nodup_nil, DedupInv.nil, DedupInv.nil, DedupInv.nil⟩
  · rw [h]; rfl
  · rw [h]; rfl

theorem stateInv_init : StateInv ⟨[], []⟩ [] := by
  refine ⟨rfl, List.nodup_nil, ?_, ?_⟩
  · intro k v hf
    simp [findSummary] at hf
  · intro k hf
    simp

theorem stateInv_getService {st : AggState} {processed : List CheckServiceNode}
    (h : StateInv st processed) (k0 : ServiceID) :
    StateInv (st.getService k0) processed ∧
    ∃ v, findSummary (st.getService k0).summary k0 = some v := by
  unfold AggState.getService
  cases hf : findSummary st.summary k0 with
  | some v => exact ⟨h, v, hf⟩
  | none =>
    have hk0 : k0 ∉ st.summary.map Prod.fst := (findSummary_eq_none _ _).mp hf
    refine ⟨⟨?_, ?_, ?_, ?_⟩, ?_⟩
    · simp [h.keys_eq]
    · simp [List.nodup_append, h.keys_nodup, hk0]
    · intro k v hfind
      rw [findSummary_append] at hfind
      cases hmk : findSummary st.summary k with
      | some v' =>
        rw [hmk] at hfind
        exact (Option.some.inj hfind) ▸ h.each k v' hmk
      | none =>
        rw [hmk] at hfind
        by_cases hk : k0 = k
        · subst hk
          simp [findSummary] at hfind
          exact hfind ▸ summaryInv_blank k0 processed (h.fresh k0 hmk)
        · simp [findSummary, hk] at hfind
    · intro k hfind
      rw [findSummary_append] at hfind
      cases hmk : findSummary st.summary k with
      | some v' => rw [hmk] at hfind; exact Option.noConfusion hfind
      | none => exact h.fresh k hmk
    · refine ⟨blankSummary k0, ?_⟩
      rw [findSummary_append, hf]
      simp [findSummary]

theorem stateInv_update {st : AggState} {processed : List CheckServiceNode}
    (h : StateInv st processed) (sid : ServiceID)
    (f : ServiceSummary → ServiceSummary)
    (hf : ∀ v, SummaryInv sid v processed → SummaryInv sid (f v) processed) :
    StateInv { st with summary := updateSummary st.summary sid f } processed := by
  refine ⟨?_, ?_, ?_, ?_⟩
  · show st.services = _
    rw [updateSummary_map_fst]
    exact h.keys_eq
  · show (updateSummary st.summary sid f).map Prod.fst |>.Nodup
    rw [updateSummary_map_fst]
    exact h.keys_nodup
  · intro k v hfind
    rw [findSummary_updateSummary] at hfind
    by_cases hk : k = sid
    · subst hk
      rw [if_pos rfl] at hfind
      cases hmk : findSummary st.summary k with
      | none => rw [hmk] at hfind; exact Option.noConfusion hfind
      | some v0 =>
        rw [hmk] at hfind
        simp only [Option.map_some'] at hfind
        exact (Option.some.inj hfind) ▸ hf v0 (h.each k v0 hmk)
    · rw [if_neg hk] at hfind
      exact h.each k v hfind
  · intro k hfind
    rw [findSummary_updateSummary] at hfind
    by_cases hk : k = sid
    · subst hk
      rw [if_pos rfl] at hfind
      cases hmk : findSummary st.summary k with
      | none => exact h.fresh k hmk
      | some v0 => rw [hmk] at hfind; exact Option.noConfusion hfind
    · rw [if_neg hk] at hfind
      exact h.fresh k hfind

theorem stateInv_extend {st : AggState} {processed : List CheckServiceNode}
    (h : StateInv st processed) (csn : CheckServiceNode)
    (hno : ∀ k, csnMatches k csn = false) :
    StateInv st (processed ++ [csn]) := by
  have hfilter : ∀ k : ServiceID,
      (processed ++ [csn]).filter (csnMatches k) =
        processed.filter (csnMatches k) := by
    intro k
    rw [List.filter_append]
    simp [List.filter_cons, hno k]
  exact ⟨h.keys_eq, h.keys_nodup,
    fun k v hf => (h.each k v hf).congr (hfilter k),
    fun k hf => (hfilter k).trans (h.fresh k hf)⟩

theorem stateInv_gateway {st : AggState} {processed : List CheckServiceNode}
    (h : StateInv st processed) (cfg : RuntimeConfig) (dc : String)
    (gwsvc : GatewayService) :
    StateInv
      { st.getService gwsvc.Service.toServiceID with
        summary := updateSummary (st.getService gwsvc.Service.toServiceID).summary
          gwsvc.Service.toServiceID
          (fun sum => modifySummaryForGatewayService cfg dc sum gwsvc) }
      processed := by
  obtain ⟨h1, -, -⟩ := stateInv_getService h gwsvc.Service.toServiceID
  refine stateInv_update h1 _ _ ?_
  intro v hv
  obtain ⟨m1, m2, m3, m4, m5, m6, m7, m8, m9, m10, m11, m12, m13, md⟩ :=
    modifyGw_fields cfg dc v gwsvc
  exact
    { name_eq := m2.trans hv.name_eq
      meta_eq := m3.trans hv.meta_eq
      count_eq := m6.trans hv.count_eq
      nodes_len := by rw [m5, m6]; exact hv.nodes_len
      kind_eq := m1.trans hv.kind_eq
      tags_nodup := by rw [m4]; exact hv.tags_nodup
      proxy_inv := by rw [m7, m8]; exact hv.proxy_inv
      ext_inv := by rw [m12, m13]; exact hv.ext_inv
      addr_inv := md hv.addr_inv }

theorem stateInv_instance {st : AggState} {processed : List CheckServiceNode}
    (h : StateInv st processed) (csn : CheckServiceNode) (svc : NodeService)
    (hsvc : csn.Service = some svc) :
    StateInv
      { st.getService (NewServiceID svc.Service svc.entMeta) with
        summary :=
          updateSummary (st.getService (NewServiceID svc.Service svc.entMeta)).summary
            (NewServiceID svc.Service svc.entMeta)
            (updateSummaryForInstance csn.Node.Node svc csn.Checks) }
      (processed ++ [csn]) := by
  obtain ⟨h1, v1, hv1⟩ := stateInv_getService h (NewServiceID svc.Service svc.entMeta)
  have hmatch : csnMatches (NewServiceID svc.Service svc.entMeta) csn = true := by
    simp [csnMatches, hsvc]
  have hfilter_sid : (processed ++ [csn]).filter
        (csnMatches (NewServiceID svc.Service svc.entMeta)) =
      processed.filter (csnMatches (NewServiceID svc.Service svc.entMeta)) ++ [csn] := by
    rw [List.filter_append]
    simp [List.filter_cons, hmatch]
  have hfilter_ne : ∀ k : ServiceID, k ≠ NewServiceID svc.Service svc.entMeta →
      (processed ++ [csn]).filter (csnMatches k) =
        processed.filter (csnMatches k) := by
    intro k hk
    have hm : csnMatches k csn = false := by
      simp only [csnMatches, hsvc, decide_eq_false_iff_not]
      exact fun he => hk he.symm
    rw [List.filter_append]
    simp [List.filter_cons, hm]
  refine ⟨?_, ?_, ?_, ?_⟩
  · show (st.getService _).services = _
    rw [updateSummary_map_fst]
    exact h1.keys_eq
  · show (updateSummary _ _ _).map Prod.fst |>.Nodup
    rw [updateSummary_map_fst]
    exact h1.keys_nodup
  · intro k v hfind
    rw [findSummary_updateSummary] at hfind
    by_cases hk : k = NewServiceID svc.Service svc.entMeta
    · subst hk
      rw [if_pos rfl, hv1] at hfind
      simp only [Option.map_some'] at hfind
      have inv1 := h1.each _ v1 hv1
      obtain ⟨u1, u2, u3, u4, u5, u6, u7, u8, u9⟩ :=
        updateInstance_fields csn.Node.Node svc csn.Checks v1
      refine (Option.some.inj hfind) ▸ ?_
      exact
        { name_eq := u1.trans inv1.name_eq
          meta_eq := u2.trans inv1.meta_eq
          count_eq := by
            rw [u3, hfilter_sid, List.length_append, List.length_singleton,
              inv1.count_eq]
          nodes_len := by
            rw [u4, u3, List.length_append, List.length_singleton,
              inv1.nodes_len]
          kind_eq := by
            rw [u5, hfilter_sid, kindOfLast, List.getLast?_concat]
            simp [csnKind, hsvc]
          tags_nodup := u7 inv1.tags_nodup
          proxy_inv := u8 inv1.proxy_inv
          ext_inv := u9 inv1.ext_inv
          addr_inv := by rw [u6]; exact inv1.addr_inv }
    · rw [if_neg hk] at hfind
      exact (h1.each k v hfind).congr (hfilter_ne k hk)
  · intro k hfind
    rw [findSummary_updateSummary] at hfind
    by_cases hk : k = NewServiceID svc.Service svc.entMeta
    · subst hk
      rw [if_pos rfl, hv1] at hfind
      exact Option.noConfusion hfind
    · rw [if_neg hk] at hfind
      exact (hfilter_ne k hk).trans (h1.fresh k hfind)

theorem stateInv_processRecord {st : AggState} {processed : List CheckServiceNode}
    (h : StateInv st processed) (cfg : RuntimeConfig) (dc : String)
    (csn : CheckServiceNode) :
    StateInv (processRecord cfg dc st csn) (processed ++ [csn]) := by
  obtain ⟨nd, svcOpt, chks, gwOpt⟩ := csn
  cases gwOpt with
  | none =>
    cases svcOpt with
    | none => exact stateInv_extend h _ (fun k => rfl)
    | some svc => exact stateInv_instance h ⟨nd, some svc, chks, none⟩ svc rfl
  | some gwsvc =>
    cases svcOpt with
    | none => exact stateInv_extend (stateInv_gateway h cfg dc gwsvc) _ (fun k => rfl)
    | some svc =>
      exact stateInv_instance (stateInv_gateway h cfg dc gwsvc)
        ⟨nd, some svc, chks, some gwsvc⟩ svc rfl

theorem stateInv_foldl (cfg : RuntimeConfig) (dc : String) :
    ∀ (dump : List CheckServiceNode) (st : AggState)
      (processed : List CheckServiceNode), StateInv st processed →
      StateInv (dump.foldl (processRecord cfg dc) st) (processed ++ dump)
  | [], st, processed, h => by simpa using h
  | csn :: rest, st, processed, h => by
    have h2 := stateInv_foldl cfg dc rest (processRecord cfg dc st csn)
      (processed ++ [csn]) (stateInv_processRecord h cfg dc csn)
    simpa using h2

/-- The scan-phase state satisfies the invariant for the full dump. -/
theorem stateInv_aggScan (dump : List CheckServiceNode) (cfg : RuntimeConfig)
    (dc : String) : StateInv (aggScan dump cfg dc) dump := by
  have h := stateInv_foldl cfg dc dump ⟨[], []⟩ [] stateInv_init
  simpa [aggScan] using h

theorem summarizeServices_eq (dump : List CheckServiceNode) (cfg : RuntimeConfig)
    (dc : String) :
    summarizeServices dump cfg dc =
      (List.insertionSort sidLe (aggScan dump cfg dc).services).map
        (finalizeSummary (aggScan dump cfg dc)) := rfl

/-- The (Name, partition/namespace) key of a finalized summary is the
ServiceID it was looked up under. -/
theorem finalize_key (dump : List CheckServiceNode) (cfg : RuntimeConfig)
    (dc : String) (a : ServiceID) :
    (⟨(finalizeSummary (aggScan dump cfg dc) a).Name,
      (finalizeSummary (aggScan dump cfg dc) a).entMeta⟩ : ServiceID) = a := by
  unfold finalizeSummary
  cases hfa : findSummary (aggScan dump cfg dc).summary a with
  | none => rfl
  | some v =>
    have inv := (stateInv_aggScan dump cfg dc).each a v hfa
    show (⟨v.Name, v.entMeta⟩ : ServiceID) = a
    rw [inv.name_eq, inv.meta_eq]

/-- Every output summary arises from a scan-state entry by sorting its
`Nodes` and `Tags` in place. -/
theorem summarize_mem_char (dump : List CheckServiceNode) (cfg : RuntimeConfig)
    (dc : String) {s : ServiceSummary} (hs : s ∈ summarizeServices dump cfg dc) :
    ∃ k v, findSummary (aggScan dump cfg dc).summary k = some v ∧
      s = { v with Nodes := sortStrings v.Nodes, Tags := sortStrings v.Tags } := by
  rw [summarizeServices_eq, List.mem_map] at hs
  obtain ⟨k, hk, hfk⟩ := hs
  rw [List.mem_insertionSort] at hk
  have hinv := stateInv_aggScan dump cfg dc
  have hmem : k ∈ (aggScan dump cfg dc).summary.map Prod.fst := by
    rw [← hinv.keys_eq]
    exact hk
  cases hfind : findSummary (aggScan dump cfg dc).summary k with
  | none => exact absurd hmem ((findSummary_eq_none _ _).mp hfind)
  | some v =>
    refine ⟨k, v, hfind, ?_⟩
    rw [← hfk]
    unfold finalizeSummary
    rw [hfind]

/-! ### Claims C5, C6, C7, C10 about the aggregator -/

/-- Scenario A service instances. -/
def scenarioAService (tags : List String) : NodeService :=
  { Service := "web", Kind := "", Tags := tags, Meta := [], Proxy := ⟨""⟩
    entMeta := ⟨"", ""⟩ }

/-- Scenario A dump: three direct `web` instances on nodes n1, n2, n1. -/
def scenarioADump : List CheckServiceNode :=
  [ { Node := ⟨"n1"⟩, Service := some (scenarioAService ["a", "b"]), Checks := []
      GatewayService := none }
  , { Node := ⟨"n2"⟩, Service := some (scenarioAService ["a", "b"]), Checks := []
      GatewayService := none }
  , { Node := ⟨"n1"⟩, Service := some (scenarioAService ["b", "c"]), Checks := []
      GatewayService := none } ]

/-- The summary Scenario A produces. -/
def scenarioASummary : ServiceSummary :=
  { Kind := "", Name := "web", Tags := ["a", "b", "c"], Nodes := ["n1", "n1", "n2"]
    InstanceCount := 3, ProxyFor := [], proxyForSet := [], ChecksPassing := 0
    ChecksWarning := 0, ChecksCritical := 0, ExternalSources := []
    externalSourceSet := [], GatewayConfig := { Addresses := [], addressesSet := [] }
    entMeta := ⟨"", ""⟩ }

/-- C5: in every output summary, `Tags`, `ProxyFor`, `ExternalSources`
and `GatewayConfig.Addresses` contain no repeated value (`Nodes` is
exempt), and the candidate DNS-name list of the gateway config resolver
is exactly the ingress names of the non-empty domains — an empty or
unconfigured domain merely reduces it (to 0, 1 or 2 entries), never an
error. -/
theorem C5_dedup_invariants (dump : List CheckServiceNode) (cfg : RuntimeConfig)
    (dc : String) (s : ServiceSummary) (hs : s ∈ summarizeServices dump cfg dc)
    (rc : RuntimeConfig) (d : String) (sn : ServiceName) :
    (s.Tags.Nodup ∧ s.ProxyFor.Nodup ∧ s.ExternalSources.Nodup ∧
     s.GatewayConfig.Addresses.Nodup) ∧
    (gatewayDNSCandidates rc d sn =
      ([rc.DNSDomain, rc.DNSAltDomain].filter (fun dom => dom ≠ "")).map
        (fun dom => serviceIngressDNSName sn.Name d dom sn.entMeta) ∧
     (gatewayDNSCandidates rc d sn).length ≤ 2) := by
  constructor
  · obtain ⟨k, v, hfind, hsum⟩ := summarize_mem_char dump cfg dc hs
    have inv := (stateInv_aggScan dump cfg dc).each k v hfind
    have hTags : s.Tags = sortStrings v.Tags := by rw [hsum]
    have hProxy : s.ProxyFor = v.ProxyFor := by rw [hsum]
    have hExt : s.ExternalSources = v.ExternalSources := by rw [hsum]
    have hAddr : s.GatewayConfig.Addresses = v.GatewayConfig.Addresses := by rw [hsum]
    refine ⟨?_, ?_, ?_, ?_⟩
    · rw [hTags]
      exact ((List.perm_insertionSort strLe v.Tags).nodup_iff).mpr inv.tags_nodup
    · rw [hProxy]
      exact inv.proxy_inv.1
    · rw [hExt]
      exact inv.ext_inv.1
    · rw [hAddr]
      exact inv.addr_inv.1
  · constructor
    · by_cases h1 : rc.DNSDomain = "" <;> by_cases h2 : rc.DNSAltDomain = "" <;>
        simp [gatewayDNSCandidates, h1, h2]
    · by_cases h1 : rc.DNSDomain = "" <;> by_cases h2 : rc.DNSAltDomain = "" <;>
        simp [gatewayDNSCandidates, h1, h2]

/-- Witness for C5 on the Scenario A summary. -/
theorem C5_dedup_invariants_witness :
    (["a", "b", "c"] : List String).Nodup :=
  (C5_dedup_invariants scenarioADump ⟨"", ""⟩ "dc1" scenarioASummary (by decide)
    ⟨"", ""⟩ "dc1" ⟨"x", ⟨"", ""⟩⟩).1.1

/-- C6: the output array is sorted by ServiceID order (name, then
partition, then namespace); within each summary `Nodes` and `Tags` are
lexicographically sorted by the final pass (which permutes them without
deduplicating); and `ProxyFor`, `ExternalSources` and
`GatewayConfig.Addresses` are exactly the scan-phase lists — the final
pass never re-sorts them, so they retain first-seen insertion order. -/
theorem C6_output_order (dump : List CheckServiceNode) (cfg : RuntimeConfig)
    (dc : String) :
    List.Pairwise (fun a b => sidLe ⟨a.Name, a.entMeta⟩ ⟨b.Name, b.entMeta⟩)
      (summarizeServices dump cfg dc) ∧
    (∀ s, s ∈ summarizeServices dump cfg dc →
      List.Sorted strLe s.Nodes ∧ List.Sorted strLe s.Tags) ∧
    (∀ s, s ∈ summarizeServices dump cfg dc →
      ∃ v, findSummary (aggScan dump cfg dc).summary ⟨s.Name, s.entMeta⟩ = some v ∧
        s.ProxyFor = v.ProxyFor ∧ s.ExternalSources = v.ExternalSources ∧
        s.GatewayConfig.Addresses = v.GatewayConfig.Addresses ∧
        s.Nodes.Perm v.Nodes ∧ s.Tags.Perm v.Tags) := by
  refine ⟨?_, ?_, ?_⟩
  · rw [summarizeServices_eq, List.pairwise_map]
    refine (List.sorted_insertionSort sidLe (aggScan dump cfg dc).services).imp ?_
    intro a b hab
    exact (congrArg₂ sidLe (finalize_key dump cfg dc a)
      (finalize_key dump cfg dc b)).mpr hab
  · intro s hs
    obtain ⟨k, v, hfind, hsum⟩ := summarize_mem_char dump cfg dc hs
    have hNodes : s.Nodes = sortStrings v.Nodes := by rw [hsum]
    have hTags : s.Tags = sortStrings v.Tags := by rw [hsum]
    rw [hNodes, hTags]
    exact ⟨List.sorted_insertionSort strLe v.Nodes,
      List.sorted_insertionSort strLe v.Tags⟩
  · intro s hs
    obtain ⟨k, v, hfind, hsum⟩ := summarize_mem_char dump cfg dc hs
    have inv := (stateInv_aggScan dump cfg dc).each k v hfind
    have hName : s.Name = v.Name := by rw [hsum]
    have hMeta : s.entMeta = v.entMeta := by rw [hsum]
    have hkey : (⟨s.Name, s.entMeta⟩ : ServiceID) = k := by
      rw [hName, hMeta, inv.name_eq, inv.meta_eq]
    refine ⟨v, by rw [hkey]; exact hfind, by rw [hsum], by rw [hsum], by rw [hsum],
      ?_, ?_⟩
    · rw [hsum]
      exact List.perm_insertionSort strLe v.Nodes
    · rw [hsum]
      exact List.perm_insertionSort strLe v.Tags

/-- Witness for C6 on the Scenario A output. -/
theorem C6_output_order_witness :
    ∃ s, s ∈ summarizeServices scenarioADump ⟨"", ""⟩ "dc1" ∧
      List.Sorted strLe s.Nodes ∧ List.Sorted strLe s.Tags :=
  ⟨scenarioASummary, by decide,
    (C6_output_order scenarioADump ⟨"", ""⟩ "dc1").2.1 scenarioASummary (by decide)⟩

/-- C7: every output summary's `InstanceCount` equals the number of dump
records that carry a direct service instance resolving to the summary's
ServiceID (gateway-association-only records contribute nothing), `Nodes`
holds one entry per such instance (no dedup), and Scenario A yields one
summary {web, 3, [n1,n1,n2], [a,b,c]}. -/
theorem C7_instance_count (dump : List CheckServiceNode) (cfg : RuntimeConfig)
    (dc : String) (s : ServiceSummary) (hs : s ∈ summarizeServices dump cfg dc) :
    (s.InstanceCount = (dump.filter (csnMatches ⟨s.Name, s.entMeta⟩)).length ∧
     s.Nodes.length = s.InstanceCount) ∧
    (summarizeServices scenarioADump ⟨"", ""⟩ "dc1").map
        (fun t => (t.Name, t.InstanceCount, t.Nodes, t.Tags)) =
      [("web", 3, ["n1", "n1", "n2"], ["a", "b", "c"])] := by
  refine ⟨?_, by decide⟩
  obtain ⟨k, v, hfind, hsum⟩ := summarize_mem_char dump cfg dc hs
  have inv := (stateInv_aggScan dump cfg dc).each k v hfind
  have hName : s.Name = v.Name := by rw [hsum]
  have hMeta : s.entMeta = v.entMeta := by rw [hsum]
  have hkey : (⟨s.Name, s.entMeta⟩ : ServiceID) = k := by
    rw [hName, hMeta, inv.name_eq, inv.meta_eq]
  have hCount : s.InstanceCount = v.InstanceCount := by rw [hsum]
  have hNodes : s.Nodes = sortStrings v.Nodes := by rw [hsum]
  constructor
  · rw [hkey, hCount]
    exact inv.count_eq
  · rw [hNodes, hCount, sortStrings, List.length_insertionSort]
    exact inv.nodes_len

/-- Witness for C7: the Scenario A evaluation itself. -/
theorem C7_instance_count_witness :
    (summarizeServices scenarioADump ⟨"", ""⟩ "dc1").map
        (fun t => (t.Name, t.InstanceCount, t.Nodes, t.Tags)) =
      [("web", 3, ["n1", "n1", "n2"], ["a", "b", "c"])] :=
  (C7_instance_count scenarioADump ⟨"", ""⟩ "dc1" scenarioASummary (by decide)).2

/-- C10: the `Kind` of every output summary is the kind carried by the
last dump record (in input order) whose direct service instance resolves
to the summary's ServiceID — each matching record overwrites `Kind`
unconditionally, so the last one wins (and a summary with no matching
direct-instance record keeps the zero value `""`). -/
theorem C10_kind_last_wins (dump : List CheckServiceNode) (cfg : RuntimeConfig)
    (dc : String) (s : ServiceSummary) (hs : s ∈ summarizeServices dump cfg dc) :
    s.Kind = kindOfLast (dump.filter (csnMatches ⟨s.Name, s.entMeta⟩)) := by
  obtain ⟨k, v, hfind, hsum⟩ := summarize_mem_char dump cfg dc hs
  have inv := (stateInv_aggScan dump cfg dc).each k v hfind
  have hName : s.Name = v.Name := by rw [hsum]
  have hMeta : s.entMeta = v.entMeta := by rw [hsum]
  have hKind : s.Kind = v.Kind := by rw [hsum]
  have hkey : (⟨s.Name, s.entMeta⟩ : ServiceID) = k := by
    rw [hName, hMeta, inv.name_eq, inv.meta_eq]
  rw [hkey, hKind]
  exact inv.kind_eq

/-- A dump with two direct instances of `s` with different kinds. -/
def c10Service (kind : String) : NodeService :=
  { Service := "s", Kind := kind, Tags := [], Meta := [], Proxy := ⟨""⟩
    entMeta := ⟨"", ""⟩ }

def c10Dump : List CheckServiceNode :=
  [ { Node := ⟨"n1"⟩, Service := some (c10Service "kind-one"), Checks := []
      GatewayService := none }
  , { Node := ⟨"n2"⟩, Service := some (c10Service "kind-two"), Checks := []
      GatewayService := none } ]

def c10Summary : ServiceSummary :=
  { Kind := "kind-two", Name := "s", Tags := [], Nodes := ["n1", "n2"]
    InstanceCount := 2, ProxyFor := [], proxyForSet := [], ChecksPassing := 0
    ChecksWarning := 0, ChecksCritical := 0, ExternalSources := []
    externalSourceSet := [], GatewayConfig := { Addresses := [], addressesSet := [] }
    entMeta := ⟨"", ""⟩ }

/-- Witness for C10: two records with kinds kind-one then kind-two yield
a summary whose kind is the last one. -/
theorem C10_kind_last_wins_witness :
    c10Summary.Kind =
      kindOfLast (c10Dump.filter (csnMatches ⟨c10Summary.Name, c10Summary.entMeta⟩)) :=
  C10_kind_last_wins c10Dump ⟨"", ""⟩ "dc1" c10Summary (by decide)

/-! ### Claims about the metrics proxy gateway -/

/-- C1: for every configured base URL and every inbound sub-path, if
`UIMetricsProxy` forwards the request then the re-stringified normalized
target URL has the configured base URL string as a prefix; and whenever
the re-stringified normalized URL does not begin with the configured base
URL string, the handler returns BadRequest ("Invalid path.") and the
reverse relay is never invoked, so the backend is never contacted. -/
theorem C1_metricsProxy_prefix_invariant
    (ui : Bool) (cfg : Option UIMetricsProxyCfg) (reqPath reqQuery : String) :
    (∀ c u, cfg = some c → UIMetricsProxy ui cfg reqPath reqQuery = .forward u →
      strStartsWith u.str c.BaseURL = true) ∧
    (∀ c u0, cfg = some c → ui = true → c.BaseURL ≠ "" →
      parseURL (c.BaseURL ++ strTrimPre reqPath uiMetricsProxyMount) = some u0 →
      strStartsWith (URL.str { u0 with path := pathClean u0.path }) c.BaseURL = false →
      UIMetricsProxy ui cfg reqPath reqQuery = .badRequest "Invalid path." ∧
      ∀ u, UIMetricsProxy ui cfg reqPath reqQuery ≠ .forward u) := by
  constructor
  · rintro c u rfl hf
    cases ui
    · simp [UIMetricsProxy] at hf
    · by_cases hb : c.BaseURL = ""
      · simp [UIMetricsProxy, hb] at hf
      · cases hp : parseURL (c.BaseURL ++ strTrimPre reqPath uiMetricsProxyMount) with
        | none => simp [UIMetricsProxy, hb, hp] at hf
        | some u0 =>
          by_cases hs : strStartsWith (URL.str { u0 with path := pathClean u0.path }) c.BaseURL
          · simp [UIMetricsProxy, hb, hp, hs] at hf
            rw [← hf]
            exact hs
          · simp [UIMetricsProxy, hb, hp, hs] at hf
  · rintro c u0 rfl rfl hb hp hs
    constructor
    · simp [UIMetricsProxy, hb, hp, hs]
    · intro u
      simp [UIMetricsProxy, hb, hp, hs]

/-- Witness for C1 at a concrete escaping input: base URL with a path
component, sub-path `/../secret`; normalization eats the `/metrics`
component, the prefix check fails, and the handler answers BadRequest. -/
theorem C1_metricsProxy_prefix_invariant_witness :
    UIMetricsProxy true (some ⟨"http://backend:9090/metrics"⟩)
        "/v1/internal/ui/metrics-proxy/../secret" "" = .badRequest "Invalid path." :=
  ((C1_metricsProxy_prefix_invariant true (some ⟨"http://backend:9090/metrics"⟩)
      "/v1/internal/ui/metrics-proxy/../secret" "").2
    ⟨"http://backend:9090/metrics"⟩
    { scheme := "http", host := "backend:9090", path := "/metrics/../secret", rawQuery := "" }
    rfl rfl (by decide) (by decide) (by decide)).1

/-- C2 (code-bug exhibit): with base URL `http://backend:9090`, inbound
path `/v1/internal/ui/metrics-proxy/api/v1/query` and inbound query
`q=up`, the handler forwards — but the Director replaces the outbound URL
wholesale with the URL parsed from base URL + sub-path, whose raw query is
empty, so the forwarded target is `http://backend:9090/api/v1/query` and
the inbound query string is dropped rather than preserved. -/
theorem C2_inbound_query_dropped :
    UIMetricsProxy true (some ⟨"http://backend:9090"⟩)
        "/v1/internal/ui/metrics-proxy/api/v1/query" "q=up" =
      .forward { scheme := "http", host := "backend:9090",
                 path := "/api/v1/query", rawQuery := "" } ∧
    URL.str { scheme := "http", host := "backend:9090",
              path := "/api/v1/query", rawQuery := "" } =
      "http://backend:9090/api/v1/query" ∧
    URL.str { scheme := "http", host := "backend:9090",
              path := "/api/v1/query", rawQuery := "" } ≠
      "http://backend:9090/api/v1/query?q=up" := by decide

/-- C3 counterexample: with base URL `http://backend:9090/metrics` and
sub-path `/cpu` the handler forwards to `http://backend:9090/metrics/cpu`
(the sub-path starts with `/`, so literal concatenation inserts nothing
but keeps that slash), not to `http://backend:9090/metricscpu` as the
claim states. -/
theorem C3_counterexample :
    UIMetricsProxy true (some ⟨"http://backend:9090/metrics"⟩)
        "/v1/internal/ui/metrics-proxy/cpu" "" =
      .forward { scheme := "http", host := "backend:9090",
                 path := "/metrics/cpu", rawQuery := "" } ∧
    URL.str { scheme := "http", host := "backend:9090",
              path := "/metrics/cpu", rawQuery := "" } ≠
      "http://backend:9090/metricscpu" := by decide

/-- C3 amended: with base URL `http://backend:9090/metrics` and sub-path
`/cpu`, the target is the literal string concatenation of the base URL and
the sub-path — `http://backend:9090/metrics` ++ `/cpu` =
`http://backend:9090/metrics/cpu` — and the request is forwarded there. -/
theorem C3_literal_concatenation :
    UIMetricsProxy true (some ⟨"http://backend:9090/metrics"⟩)
        "/v1/internal/ui/metrics-proxy/cpu" "" =
      .forward { scheme := "http", host := "backend:9090",
                 path := "/metrics/cpu", rawQuery := "" } ∧
    URL.str { scheme := "http", host := "backend:9090",
              path := "/metrics/cpu", rawQuery := "" } =
      "http://backend:9090/metrics" ++ "/cpu" := by decide

/-- C8: with the UI disabled the handler fails NotFound ("UI is not
enabled") for every input; with the UI enabled and an empty configured
base URL it fails NotFound ("Metrics proxy is not enabled") for every
sub-path; in both cases no forwarding occurs. -/
theorem C8_notFound_cases (cfg : Option UIMetricsProxyCfg) (reqPath reqQuery : String) :
    (UIMetricsProxy false cfg reqPath reqQuery = .notFound "UI is not enabled") ∧
    (∀ c, cfg = some c → c.BaseURL = "" →
      UIMetricsProxy true cfg reqPath reqQuery = .notFound "Metrics proxy is not enabled") ∧
    (∀ u, UIMetricsProxy false cfg reqPath reqQuery ≠ .forward u) ∧
    (∀ c u, cfg = some c → c.BaseURL = "" →
      UIMetricsProxy true cfg reqPath reqQuery ≠ .forward u) := by
  refine ⟨by simp [UIMetricsProxy], ?_, by simp [UIMetricsProxy], ?_⟩
  · rintro c rfl hb
    simp [UIMetricsProxy, hb]
  · rintro c u rfl hb
    simp [UIMetricsProxy, hb]

/-- Witness for C8: empty base URL yields NotFound for a concrete
sub-path. -/
theorem C8_notFound_cases_witness :
    UIMetricsProxy true (some ⟨""⟩) "/v1/internal/ui/metrics-proxy/anything" "" =
      .notFound "Metrics proxy is not enabled" :=
  (C8_notFound_cases (some ⟨""⟩) "/v1/internal/ui/metrics-proxy/anything" "").2.1 ⟨""⟩ rfl rfl

/-! ### Claims about serialization (C4) -/

/-- A minimal dump: one direct instance of service `web` on node `n1`,
with no tags, meta, checks or gateway association. -/
def c4Dump : List CheckServiceNode :=
  [{ Node := ⟨"n1"⟩
     Service := some { Service := "web", Kind := "", Tags := [], Meta := []
                       Proxy := ⟨""⟩, entMeta := ⟨"", ""⟩ }
     Checks := []
     GatewayService := none }]

/-- C4 counterexample: on `c4Dump` the only summary's empty collections
are not serialized as explicit empty arrays: `Tags` and `ExternalSources`
come out as JSON `null` (untagged nil slices) and `ProxyFor` and
`GatewayConfig.Addresses` are omitted entirely (`json:",omitempty"`). -/
theorem C4_counterexample :
    (summarizeServices c4Dump ⟨"", ""⟩ "dc1").map serializeCollections =
      [{ Tags := .null, Nodes := .arr ["n1"], ProxyFor := .omitted,
         ExternalSources := .null, GatewayConfigAddresses := .omitted }] := by decide

/-- C4 amended: for every input and every summary in the output, a
collection field is serialized as an explicit array exactly when it is
non-empty; when empty, the untagged fields `Tags`, `Nodes` and
`ExternalSources` serialize as JSON `null` and the `json:",omitempty"`
fields `ProxyFor` and `GatewayConfig.Addresses` are omitted. -/
theorem C4_empty_collections_not_arrays (dump : List CheckServiceNode)
    (cfg : RuntimeConfig) (dc : String) (s : ServiceSummary)
    (hs : s ∈ summarizeServices dump cfg dc) :
    ((serializeCollections s).Tags =
      if s.Tags.isEmpty then .null else .arr s.Tags) ∧
    ((serializeCollections s).Nodes =
      if s.Nodes.isEmpty then .null else .arr s.Nodes) ∧
    ((serializeCollections s).ProxyFor =
      if s.ProxyFor.isEmpty then .omitted else .arr s.ProxyFor) ∧
    ((serializeCollections s).ExternalSources =
      if s.ExternalSources.isEmpty then .null else .arr s.ExternalSources) ∧
    ((serializeCollections s).GatewayConfigAddresses =
      if s.GatewayConfig.Addresses.isEmpty then .omitted
      else .arr s.GatewayConfig.Addresses) :=
  ⟨rfl, rfl, rfl, rfl, rfl⟩

/-- Witness for C4's amended statement at the `c4Dump` summary. -/
theorem C4_empty_collections_not_arrays_witness :
    ∃ s ∈ summarizeServices c4Dump ⟨"", ""⟩ "dc1",
      (serializeCollections s).Tags = (if s.Tags.isEmpty then .null else .arr s.Tags) := by
  refine ⟨{ Kind := "", Name := "web", Tags := [], Nodes := ["n1"], InstanceCount := 1
            ProxyFor := [], proxyForSet := [], ChecksPassing := 0, ChecksWarning := 0
            ChecksCritical := 0, ExternalSources := [], externalSourceSet := []
            GatewayConfig := { Addresses := [], addressesSet := [] }
            entMeta := ⟨"", ""⟩ }, by decide, ?_⟩
  exact (C4_empty_collections_not_arrays c4Dump ⟨"", ""⟩ "dc1" _ (by decide)).1

/-! ### Claim C9: graceful degradation and check counting -/

/-- C9: the aggregator never errors: a record with neither a direct
service instance nor a gateway association contributes nothing, and each
check increments exactly the one counter matching its status — a check
whose status is none of passing/warning/critical increments no counter at
all. -/
theorem C9_checks_and_totality (sum : ServiceSummary) (check : HealthCheck)
    (cfg : RuntimeConfig) (dc : String) (st : AggState)
    (node : NodeInfo) (checks : List HealthCheck) :
    ((applyCheck sum check).ChecksPassing =
      sum.ChecksPassing + (if check.Status = HealthPassing then 1 else 0)) ∧
    ((applyCheck sum check).ChecksWarning =
      sum.ChecksWarning + (if check.Status = HealthWarning then 1 else 0)) ∧
    ((applyCheck sum check).ChecksCritical =
      sum.ChecksCritical + (if check.Status = HealthCritical then 1 else 0)) ∧
    (check.Status ≠ HealthPassing → check.Status ≠ HealthWarning →
      check.Status ≠ HealthCritical → applyCheck sum check = sum) ∧
    (processRecord cfg dc st { Node := node, Service := none, Checks := checks,
                               GatewayService := none } = st) := by
  refine ⟨?_, ?_, ?_, ?_, rfl⟩ <;>
    by_cases h1 : check.Status = HealthPassing <;>
      by_cases h2 : check.Status = HealthWarning <;>
        by_cases h3 : check.Status = HealthCritical <;>
          simp_all [applyCheck, HealthPassing, HealthWarning, HealthCritical]

/-- Witness for C9: a check with the unknown status `"unknown"` leaves the
summary unchanged. -/
theorem C9_checks_and_totality_witness :
    applyCheck (blankSummary ⟨"w", ⟨"", ""⟩⟩) ⟨"unknown"⟩ = blankSummary ⟨"w", ⟨"", ""⟩⟩ :=
  (C9_checks_and_totality (blankSummary ⟨"w", ⟨"", ""⟩⟩) ⟨"unknown"⟩ ⟨"", ""⟩ ""
      ⟨[], []⟩ ⟨""⟩ []).2.2.2.1 (by decide) (by decide) (by decide)
